import Mathlib

/-!
Verification of the appointment-scheduling core of a multi-tenant booking
backend (`src/index.js`).  The slot grid, capacity planner, booking and
reschedule handlers, lifecycle scans, automation rule firing and the delivery
retry coordinator are embedded as pure Lean functions over an explicit store;
machine time is modelled as minutes since an epoch (UTC), so the minute-of-day
of an instant `t` is `t % 1440` and its calendar day is `t / 1440`.
-/

namespace WhatsappCrm

/-- `SLOT_SIZE_MINUTES` from the source: the fixed slot width. -/
def SLOT_SIZE_MINUTES : Nat := 15

/-- `minutesToSlotIndex(minutes)`: `Math.floor(minutes / SLOT_SIZE_MINUTES)`. -/
def minutesToSlotIndex (minutes : Nat) : Nat :=
  minutes / SLOT_SIZE_MINUTES

/-- `Math.ceil(durationMinutes / SLOT_SIZE_MINUTES)` on naturals. -/
def requiredSlotCount (durationMinutes : Nat) : Nat :=
  (durationMinutes + SLOT_SIZE_MINUTES - 1) / SLOT_SIZE_MINUTES

/-- `getSlotRange(startMinutes, durationMinutes)` from the source:
`Array.from({length: slotCount}, (_, i) => startSlot + i)` where
`startSlot = floor(startMinutes/15)` and `slotCount = ceil(durationMinutes/15)`. -/
def getSlotRange (startMinutes durationMinutes : Nat) : List Nat :=
  let startSlot := minutesToSlotIndex startMinutes
  let slotCount := requiredSlotCount durationMinutes
  (List.range slotCount).map (fun i => startSlot + i)

/-- `buildSlotLoadMap(appointments)` from the source.  Each entry of the input
list is an `(appointment_time, duration_minutes)` pair; the start minute of
day is recovered as `getUTCHours()*60 + getUTCMinutes()`, i.e. `t % 1440`.
The JS object used as a map is modelled as a total function defaulting to 0. -/
def buildSlotLoadMap (appointments : List (Nat × Nat)) : Nat → Nat :=
  appointments.foldl
    (fun slotLoad appt =>
      let startMinutes := appt.1 % 1440
      let slots := getSlotRange startMinutes appt.2
      slots.foldl (fun m slot => Function.update m slot (m slot + 1)) slotLoad)
    (fun _ => 0)

/-- The capacity loop of `POST /appointments` (and of the reschedule handler):
for `i` in `[0, requiredSlots)` the slot `startSlotIndex + i` must have load
strictly below `maxPerSlot`; the first saturated slot aborts with 409.  The
loop passes iff every required slot is below the cap. -/
def capacityCheckPasses (slotLoad : Nat → Nat)
    (slot_minutes totalDurationMinutes maxPerSlot : Nat) : Bool :=
  let startSlotIndex := slot_minutes / SLOT_SIZE_MINUTES
  let requiredSlots := requiredSlotCount totalDurationMinutes
  (List.range requiredSlots).all fun i =>
    decide (slotLoad (startSlotIndex + i) < maxPerSlot)

/-- The body of the availability loop of `GET /appointments/availability`:
`requiredSlots = getSlotRange(startMinutes, durationMinutes)` and
`isAvailable = requiredSlots.every(slot => (slotLoad[slot] || 0) < maxPerSlot)`. -/
def isAvailableAt (slotLoad : Nat → Nat)
    (startMinutes durationMinutes maxPerSlot : Nat) : Bool :=
  (getSlotRange startMinutes durationMinutes).all fun slot =>
    decide (slotLoad slot < maxPerSlot)

/-- Slot `k` (the interval `[15k, 15(k+1))`) overlaps the appointment interval
`[startMinutes, startMinutes + durationMinutes)`. -/
def slotOverlapsInterval (startMinutes durationMinutes k : Nat) : Prop :=
  SLOT_SIZE_MINUTES * k < startMinutes + durationMinutes ∧
    startMinutes < SLOT_SIZE_MINUTES * (k + 1)

instance (s d k : Nat) : Decidable (slotOverlapsInterval s d k) := by
  unfold slotOverlapsInterval; infer_instance

lemma getSlotRange_nodup (s d : Nat) : (getSlotRange s d).Nodup := by
  unfold getSlotRange
  exact List.Nodup.map (fun a b h => by omega) (List.nodup_range _)

lemma mem_getSlotRange (s d k : Nat) :
    k ∈ getSlotRange s d ↔
      s / SLOT_SIZE_MINUTES ≤ k ∧
        k < s / SLOT_SIZE_MINUTES + requiredSlotCount d := by
  unfold getSlotRange minutesToSlotIndex
  simp only [List.mem_map, List.mem_range]
  constructor
  · rintro ⟨i, hi, rfl⟩; omega
  · intro h
    exact ⟨k - s / SLOT_SIZE_MINUTES, by omega, by omega⟩

lemma lt_requiredSlotCount_iff (m d : Nat) :
    m < requiredSlotCount d ↔ SLOT_SIZE_MINUTES * m < d := by
  unfold requiredSlotCount SLOT_SIZE_MINUTES
  omega

lemma foldl_update_apply (slots : List Nat) (m : Nat → Nat) (s : Nat) :
    (slots.foldl (fun m slot => Function.update m slot (m slot + 1)) m) s
      = m s + slots.count s := by
  induction slots generalizing m with
  | nil => simp
  | cons a l ih =>
      rw [List.foldl_cons, ih]
      by_cases h : s = a
      · subst h
        simp [Function.update_apply, List.count_cons]
        omega
      · simp [Function.update_apply, h, List.count_cons]

lemma buildSlotLoadMap_aux (l : List (Nat × Nat)) (m : Nat → Nat) (s : Nat) :
    (l.foldl
      (fun slotLoad appt =>
        let startMinutes := appt.1 % 1440
        let slots := getSlotRange startMinutes appt.2
        slots.foldl (fun m slot => Function.update m slot (m slot + 1)) slotLoad)
      m) s
      = m s + l.countP (fun p => decide (s ∈ getSlotRange (p.1 % 1440) p.2)) := by
  induction l generalizing m with
  | nil => simp
  | cons p l ih =>
      rw [List.foldl_cons, ih, foldl_update_apply, List.countP_cons]
      by_cases h : s ∈ getSlotRange (p.1 % 1440) p.2
      · rw [List.count_eq_one_of_mem (getSlotRange_nodup _ _) h]
        simp [h]; omega
      · rw [List.count_eq_zero_of_not_mem h]
        simp [h]

/-- The slot load built by `buildSlotLoadMap` at slot `s` is the number of
input appointments whose slot range contains `s`: the aggregation increments
exactly the slots of each appointment's range. -/
lemma buildSlotLoadMap_apply (l : List (Nat × Nat)) (s : Nat) :
    buildSlotLoadMap l s
      = l.countP (fun p => decide (s ∈ getSlotRange (p.1 % 1440) p.2)) := by
  unfold buildSlotLoadMap
  rw [buildSlotLoadMap_aux]
  simp

/-! ## Persistent store and HTTP handlers

The claims concern a single tenant, so the `business_id` filters (which all
queries share) are dropped and the store holds that tenant's rows.  Statuses
are the literal strings the source stores. -/

/-- A row of the `appointments` table (the fields the claims depend on). -/
structure StoredAppt where
  id : Nat
  time : Nat
  durationMinutes : Nat
  status : String
deriving DecidableEq

/-- A row of the `appointment_services` table: a service line item. -/
structure SvcRow where
  appointmentId : Nat
  serviceId : Nat
  durationMinutes : Nat
deriving DecidableEq

/-- The shared persistent store (appointments, their line items, and the
`automation_logs` rows as `(appointment_id, rule_id)` pairs). -/
structure Store where
  appointments : List StoredAppt
  appointmentServices : List SvcRow
  automationLogs : List (Nat × Nat)
deriving DecidableEq

/-- One entry of the `services` array of a booking request. -/
structure SvcItem where
  serviceId : Nat
  durationMinutes : Nat
deriving DecidableEq

/-- Outcome of `POST /appointments`. -/
inductive BookResult where
  /-- 400: missing services or non-positive total duration. -/
  | invalidPayload
  /-- 409: `Selected time slot is fully booked`. -/
  | slotFullyBooked
  /-- 500: the `appointment_services` insert failed; the appointment row was
  deleted again (compensating rollback). -/
  | serviceInsertFailed
  /-- 200 with the created appointment row. -/
  | ok (appt : StoredAppt)
deriving DecidableEq

/-- The same-day scheduled appointments fetched by the booking and
availability handlers: `status = 'scheduled'` and `appointment_time` between
`dayStart` and `dayEnd` of the day of `t`. -/
def sameDayScheduled (appts : List StoredAppt) (t : Nat) : List StoredAppt :=
  appts.filter fun a => a.status == "scheduled" && a.time / 1440 == t / 1440

/-- The slot-load map the booking handler builds for the day of `t`. -/
def dayLoad (st : Store) (t : Nat) : Nat → Nat :=
  buildSlotLoadMap ((sameDayScheduled st.appointments t).map
    fun a => (a.time, a.durationMinutes))

/-- `POST /appointments` (the persistence-relevant part, customer resolution
and messaging aside).  `nextId` is the id the store would assign to the new
row; `svcInsertFails` tells whether the `appointment_services` insert errors
(the store is an external collaborator, so its failure is an input). -/
def createAppointment (st : Store) (nextId maxPerSlot : Nat)
    (services : List SvcItem) (time : Nat) (svcInsertFails : Bool) :
    BookResult × Store :=
  if services.isEmpty then (.invalidPayload, st)
  else
    let totalDurationMinutes := (services.map (·.durationMinutes)).sum
    if totalDurationMinutes = 0 then (.invalidPayload, st)
    else
      let slot_minutes := time % 1440
      let slotLoad := dayLoad st time
      if capacityCheckPasses slotLoad slot_minutes totalDurationMinutes maxPerSlot then
        let appt : StoredAppt :=
          { id := nextId, time := time,
            durationMinutes := totalDurationMinutes, status := "scheduled" }
        let st1 : Store := { st with appointments := st.appointments ++ [appt] }
        if svcInsertFails then
          (.serviceInsertFailed,
            { st1 with appointments := st1.appointments.filter fun a => a.id != nextId })
        else
          (.ok appt,
            { st1 with appointmentServices := st1.appointmentServices ++
                services.map fun s =>
                  { appointmentId := nextId, serviceId := s.serviceId,
                    durationMinutes := s.durationMinutes } })
      else (.slotFullyBooked, st)

/-- Outcome of `PATCH /appointments/:id/reschedule-slot`. -/
inductive RescheduleResult where
  /-- 404: appointment not found for this tenant. -/
  | notFound
  /-- 400: `Appointment services missing. Cannot reschedule.` -/
  | servicesMissing
  /-- 409: `Selected time slot is fully booked`. -/
  | slotFullyBooked
  /-- 200 with the updated appointment row. -/
  | ok (appt : StoredAppt)
deriving DecidableEq

/-- `PATCH /appointments/:id/reschedule-slot` (persistence-relevant part):
verify the appointment exists, recompute the total duration from its stored
line items, run the same capacity loop over the same-day scheduled
appointments excluding this one, then update the row (new time, duration,
status reset to `scheduled`) and delete the appointment's automation logs. -/
def rescheduleSlot (st : Store) (appointmentId maxPerSlot newTime : Nat) :
    RescheduleResult × Store :=
  match st.appointments.find? (fun a => a.id == appointmentId) with
  | none => (.notFound, st)
  | some appt =>
    let svcs := st.appointmentServices.filter fun s => s.appointmentId == appointmentId
    if svcs.isEmpty then (.servicesMissing, st)
    else
      let totalDurationMinutes := (svcs.map (·.durationMinutes)).sum
      let slot_minutes := newTime % 1440
      let existing := st.appointments.filter fun a =>
        a.status == "scheduled" && a.id != appointmentId &&
          a.time / 1440 == newTime / 1440
      let slotLoad := buildSlotLoadMap (existing.map fun a => (a.time, a.durationMinutes))
      if capacityCheckPasses slotLoad slot_minutes totalDurationMinutes maxPerSlot then
        let updated : StoredAppt :=
          { appt with time := newTime,
                      durationMinutes := totalDurationMinutes,
                      status := "scheduled" }
        (.ok updated,
          { st with
              appointments := st.appointments.map fun a =>
                if a.id = appointmentId then
                  { a with time := newTime,
                           durationMinutes := totalDurationMinutes,
                           status := "scheduled" }
                else a,
              automationLogs := st.automationLogs.filter
                fun l => l.1 != appointmentId })
      else (.slotFullyBooked, st)

/-- One pass of `autoMarkNoShows` over one tenant's appointments: fetch the
`scheduled` ones, keep those with `now > appointment_time + graceMinutes`
(grace defaulting to 30 when the setting is absent), and set the status of
the rows with those ids to `no_show`. -/
def autoMarkNoShows (now : Nat) (graceSetting : Option Nat)
    (appts : List StoredAppt) : List StoredAppt :=
  let graceMinutes := graceSetting.getD 30
  let overdueIds :=
    ((appts.filter fun a => a.status == "scheduled").filter
      fun a => a.time + graceMinutes < now).map (·.id)
  appts.map fun a =>
    if overdueIds.contains a.id then { a with status := "no_show" } else a

/-- Outcome of `PATCH /appointments/:id/status`. -/
inductive StatusResult where
  /-- 400: `Invalid status`. -/
  | invalidStatus
  /-- 404: appointment not found for this tenant. -/
  | notFound
  /-- 200 with the updated row. -/
  | ok (appt : StoredAppt)
deriving DecidableEq

/-- `allowedStatuses` from the status-update handler. -/
def allowedStatuses : List String := ["completed", "no_show", "cancelled"]

/-- `PATCH /appointments/:id/status`: reject targets outside
`allowedStatuses` with 400, 404 when the row is absent, otherwise update the
row's status to the target. -/
def updateAppointmentStatus (appts : List StoredAppt) (apptId : Nat)
    (status : String) : StatusResult × List StoredAppt :=
  if !(allowedStatuses.contains status) then (.invalidStatus, appts)
  else
    match appts.find? (fun a => a.id == apptId) with
    | none => (.notFound, appts)
    | some appt =>
        (.ok { appt with status := status },
          appts.map fun a => if a.id = apptId then { a with status := status } else a)

/-! ## Automation rule engine -/

/-- Result of `sendWhatsAppMessage`: the function catches its own errors and
returns `{status: 'submitted'}` or `{status: 'failed'}`. -/
inductive SendStatus where
  | submitted
  | failed
deriving DecidableEq

/-- The body of the automation cron for one `(appointment, rule)` match: check
`automation_logs` for an existing `(appointment_id, rule_id)` row and skip if
present; otherwise dispatch, and only when the result is `submitted` insert
the log row.  Returns the logs after the firing and the number of messages
the gateway accepted (`submitted` dispatches). -/
def fireRuleForAppt (logs : List (Nat × Nat)) (apptId ruleId : Nat)
    (send : SendStatus) : List (Nat × Nat) × Nat :=
  if logs.any (fun l => l.1 == apptId && l.2 == ruleId) then (logs, 0)
  else
    match send with
    | .submitted => (logs ++ [(apptId, ruleId)], 1)
    | .failed => (logs, 0)

/-! ## Delivery retry coordinator -/

/-- A row of the `messages` table (the fields the retry loop touches). -/
structure Message where
  id : Nat
  customerId : Nat
  content : String
  status : String
  retryCount : Nat
  errorText : Option String
deriving DecidableEq

/-- The `getCustomerPhone` call of `retryFailedMessages`.  No function of that
name is defined anywhere in the repository, so in JavaScript the call raises
`ReferenceError: getCustomerPhone is not defined`, which the loop's
surrounding `catch` receives before any resend is attempted. -/
def getCustomerPhoneCall : Except String String :=
  .error ("getCustomerPhone is not defined")

/-- One run of `retryFailedMessages`: select up to 10 messages with
`status = 'failed'` and `retry_count < 3`; for each, set `status = 'retrying'`,
then run the try-block (`getCustomerPhone` + resend + mark `sent`); its
exception lands in the catch, which sets `status = 'failed'`,
`retry_count = retry_count + 1` and the captured error text.  Message ids are
assumed distinct, as for table rows. -/
def retryFailedMessages (msgs : List Message) : List Message :=
  let batch := (msgs.filter fun m => m.status == "failed" && m.retryCount < 3).take 10
  msgs.map fun m =>
    if batch.any (fun b => b.id == m.id) then
      match getCustomerPhoneCall with
      | .ok _phone => { m with status := "sent" }
      | .error e =>
          { m with status := "failed", retryCount := m.retryCount + 1,
                   errorText := some e }
    else m

/-! ## Repeated booking (the capacity scenario of §8) -/

/-- Book `n` times in sequence with the same payload, the store assigning
consecutive ids, collecting the handler results. -/
def bookTimes (maxPerSlot : Nat) (services : List SvcItem) (time : Nat) :
    Nat → Store → Nat → List BookResult × Store
  | 0, st, _ => ([], st)
  | n + 1, st, nextId =>
      let step := createAppointment st nextId maxPerSlot services time false
      let rest := bookTimes maxPerSlot services time n step.2 (nextId + 1)
      (step.1 :: rest.1, rest.2)

/-- The store after `n` successful bookings of a single service of duration
`d` at time `t` into an initially empty store. -/
def storeN (n t d : Nat) : Store :=
  { appointments := (List.range n).map fun j =>
      { id := j, time := t, durationMinutes := d, status := "scheduled" },
    appointmentServices := (List.range n).map fun j =>
      { appointmentId := j, serviceId := 0, durationMinutes := d },
    automationLogs := [] }

/-! ## Helper lemmas -/

lemma requiredSlotCount_eq_one {d : Nat} (hd : 0 < d) (hd15 : d ≤ 15) :
    requiredSlotCount d = 1 := by
  unfold requiredSlotCount SLOT_SIZE_MINUTES
  omega

lemma getSlotRange_singleton {d : Nat} (s : Nat) (hd : 0 < d) (hd15 : d ≤ 15) :
    getSlotRange s d = [s / SLOT_SIZE_MINUTES] := by
  unfold getSlotRange minutesToSlotIndex
  rw [requiredSlotCount_eq_one hd hd15]
  rfl

lemma sameDayScheduled_storeN (n t d : Nat) :
    sameDayScheduled (storeN n t d).appointments t = (storeN n t d).appointments := by
  unfold sameDayScheduled storeN
  rw [List.filter_eq_self]
  intro a ha
  simp only [List.mem_map, List.mem_range] at ha
  obtain ⟨j, _, rfl⟩ := ha
  simp

lemma countP_map_range_const {α : Type _} (f : Nat → α) (p : α → Bool) (c : α)
    (hf : ∀ j, f j = c) : ∀ n, ((List.range n).map f).countP p = if p c then n else 0
  | 0 => by simp
  | n + 1 => by
      rw [List.range_succ, List.map_append, List.countP_append,
        countP_map_range_const f p c hf n]
      simp only [List.map_cons, List.map_nil, List.countP_cons, List.countP_nil, hf n]
      split <;> simp

lemma dayLoad_storeN (n t d : Nat) (hd : 0 < d) (hd15 : d ≤ 15) (s : Nat) :
    dayLoad (storeN n t d) t s
      = if s = t % 1440 / SLOT_SIZE_MINUTES then n else 0 := by
  unfold dayLoad
  rw [sameDayScheduled_storeN, buildSlotLoadMap_apply]
  show (((List.range n).map _).map _).countP _ = _
  rw [List.map_map]
  refine (countP_map_range_const _ _ (t, d) (fun j => rfl) n).trans ?_
  rw [getSlotRange_singleton _ hd hd15]
  by_cases h : s = t % 1440 / SLOT_SIZE_MINUTES
  · simp [h]
  · simp [h]

lemma createAppointment_storeN (k d t n : Nat) (hd : 0 < d) (hd15 : d ≤ 15) :
    createAppointment (storeN n t d) n k [⟨0, d⟩] t false
      = if n < k then
          (.ok { id := n, time := t, durationMinutes := d, status := "scheduled" },
            storeN (n + 1) t d)
        else (.slotFullyBooked, storeN n t d) := by
  unfold createAppointment
  have hsum : (([⟨0, d⟩] : List SvcItem).map (·.durationMinutes)).sum = d := by simp
  rw [if_neg (by simp)]
  simp only [hsum]
  rw [if_neg (by omega)]
  have hcap : capacityCheckPasses (dayLoad (storeN n t d) t) (t % 1440) d k
      = decide (n < k) := by
    unfold capacityCheckPasses
    rw [requiredSlotCount_eq_one hd hd15]
    show (List.range 1).all _ = _
    simp only [List.range_succ, List.range_zero, List.nil_append, List.all_cons,
      List.all_nil, Bool.and_true]
    rw [dayLoad_storeN n t d hd hd15]
    simp
  rw [hcap]
  by_cases hnk : n < k
  · rw [if_pos hnk, if_pos (decide_eq_true hnk), if_neg (by simp)]
    unfold storeN
    simp [List.range_succ]
  · rw [if_neg hnk, if_neg (by simp [hnk])]

lemma storeN_append (n t d : Nat) :
    (storeN (n + 1) t d).appointments
        = (storeN n t d).appointments
            ++ [{ id := n, time := t, durationMinutes := d, status := "scheduled" }]
    ∧ (storeN (n + 1) t d).appointmentServices
        = (storeN n t d).appointmentServices
            ++ [{ appointmentId := n, serviceId := 0, durationMinutes := d }] := by
  unfold storeN
  simp [List.range_succ]

lemma bookTimes_storeN (k d t : Nat) (hd : 0 < d) (hd15 : d ≤ 15) :
    ∀ j n, n + j = k + 1 → n ≤ k →
      bookTimes k [⟨0, d⟩] t j (storeN n t d) n
        = ((List.range' n (k - n)).map (fun i =>
              .ok { id := i, time := t, durationMinutes := d, status := "scheduled" })
            ++ [.slotFullyBooked],
           storeN k t d) := by
  intro j
  induction j with
  | zero => intro n hj hn; omega
  | succ j ih =>
      intro n hj hn
      show (_ :: (bookTimes k [⟨0, d⟩] t j _ _).1, (bookTimes k [⟨0, d⟩] t j _ _).2) = _
      rw [createAppointment_storeN k d t n hd hd15]
      by_cases hnk : n < k
      · rw [if_pos hnk]
        have hrec := ih (n + 1) (by omega) (by omega)
        simp only [hrec]
        have hr : List.range' n (k - n)
            = n :: List.range' (n + 1) (k - (n + 1)) := by
          have : k - n = (k - (n + 1)) + 1 := by omega
          rw [this, List.range'_succ]
        rw [hr]
        simp
      · rw [if_neg hnk]
        have hnkeq : n = k := by omega
        subst hnkeq
        have hj0 : j = 0 := by omega
        subst hj0
        show ((BookResult.slotFullyBooked : BookResult) :: [], storeN n t d) = _
        simp

/-! ## Claim theorems -/

/-- C10: the availability endpoint and the booking capacity check agree: for
every slot-load map, start minute, duration and max-per-slot value, the
availability loop reports a candidate start available exactly when the booking
handler's per-slot capacity loop would pass for the same start and duration —
both check that every slot of the same required range has load strictly below
the cap, so availability is a faithful read-only projection of bookability. -/
theorem availability_agrees_with_booking_loop
    (slotLoad : Nat → Nat) (startMinutes durationMinutes maxPerSlot : Nat) :
    isAvailableAt slotLoad startMinutes durationMinutes maxPerSlot
      = capacityCheckPasses slotLoad startMinutes durationMinutes maxPerSlot := by
  unfold isAvailableAt capacityCheckPasses getSlotRange minutesToSlotIndex
  rw [List.all_map]
  rfl

/-- C2 (counterexample): the slot range does NOT contain every slot the
appointment's interval overlaps.  The appointment starting at minute 10 with
duration 10 occupies the interval `[10, 20)`, which partially overlaps slot 1
(`[15, 30)`), yet `getSlotRange 10 10 = [0]` omits slot 1. -/
theorem getSlotRange_misses_partially_overlapped_slot :
    slotOverlapsInterval 10 10 1 ∧ 1 ∉ getSlotRange 10 10 := by
  decide

/-- C2 (amended): for every start minute and duration, the slot range is the
contiguous run of `ceil(durationMinutes / slotSize)` slot indices beginning at
`floor(startMinutes / slotSize)`; when the start minute is aligned to the slot
grid (`startMinutes % slotSize = 0`) this range contains exactly the slots the
interval `[startMinutes, startMinutes + durationMinutes)` overlaps, even
partially; and `buildSlotLoadMap` increments the load of exactly these slots
for each appointment, as a pure aggregation. -/
theorem slotRange_and_buildLoad_amended :
    (∀ s d, getSlotRange s d
        = (List.range (requiredSlotCount d)).map fun i => s / SLOT_SIZE_MINUTES + i)
    ∧ (∀ s d k, s % SLOT_SIZE_MINUTES = 0 →
        (k ∈ getSlotRange s d ↔ slotOverlapsInterval s d k))
    ∧ (∀ l slot, buildSlotLoadMap l slot
        = l.countP fun p => decide (slot ∈ getSlotRange (p.1 % 1440) p.2)) := by
  refine ⟨fun s d => rfl, fun s d k hs => ?_, buildSlotLoadMap_apply⟩
  rw [mem_getSlotRange]
  unfold slotOverlapsInterval
  have ha := lt_requiredSlotCount_iff (k - s / SLOT_SIZE_MINUTES) d
  unfold SLOT_SIZE_MINUTES at *
  omega

/-- C2 witness for the amended theorem: at the aligned start minute 15 with
duration 20, slot 2 (`[30, 45)`) is in the range exactly because the interval
`[15, 35)` overlaps it. -/
theorem slotRange_and_buildLoad_amended_witness :
    (2 ∈ getSlotRange 15 20 ↔ slotOverlapsInterval 15 20 2) ∧ 2 ∈ getSlotRange 15 20 :=
  ⟨slotRange_and_buildLoad_amended.2.1 15 20 2 (by decide), by decide⟩

/-- C6: one scan of the no-show job marks a `scheduled` appointment `no_show`
exactly when `now` is strictly greater than its appointment time plus the
tenant's grace minutes (default 30 when the setting is absent), and leaves
every other appointment unchanged. -/
theorem autoMarkNoShows_correct (now : Nat) (graceSetting : Option Nat)
    (appts : List StoredAppt) (hids : (appts.map (·.id)).Nodup) :
    autoMarkNoShows now graceSetting appts
      = appts.map fun a =>
          if a.status = "scheduled" ∧ a.time + graceSetting.getD 30 < now
          then { a with status := "no_show" } else a := by
  unfold autoMarkNoShows
  apply List.map_congr_left
  intro a ha
  have hkey : ((((appts.filter fun a => a.status == "scheduled").filter
        fun a => a.time + graceSetting.getD 30 < now).map (·.id)).contains a.id)
      = decide (a.status = "scheduled" ∧ a.time + graceSetting.getD 30 < now) := by
    by_cases hcond : a.status = "scheduled" ∧ a.time + graceSetting.getD 30 < now
    · rw [decide_eq_true hcond]
      rw [List.contains_eq_any_beq]
      rw [List.any_eq_true]
      refine ⟨a.id, ?_, by simp⟩
      simp only [List.mem_map, List.mem_filter]
      exact ⟨a, ⟨⟨ha, by simp [hcond.1]⟩, by simp [hcond.2]⟩, rfl⟩
    · rw [decide_eq_false hcond]
      rw [List.contains_eq_any_beq]
      rw [List.any_eq_false]
      intro x hx
      simp only [List.mem_map, List.mem_filter] at hx
      obtain ⟨b, ⟨⟨hb, hb1⟩, hb2⟩, rfl⟩ := hx
      simp only [beq_iff_eq] at hb1
      simp only [decide_eq_true_eq] at hb2
      intro hbeq
      simp only [beq_iff_eq] at hbeq
      exact absurd (List.inj_on_of_nodup_map hids hb ha hbeq.symm ▸ ⟨hb1, hb2⟩) hcond
  rw [hkey]
  by_cases hcond : a.status = "scheduled" ∧ a.time + graceSetting.getD 30 < now
  · simp [hcond]
  · simp [hcond]

/-- C6 witness: with grace unset (default 30) at `now = 1000`, a scheduled
appointment at minute 900 (900 + 30 < 1000) becomes `no_show`, one at minute
980 (980 + 30 ≥ 1000) stays `scheduled`, and a `completed` one is untouched. -/
theorem autoMarkNoShows_witness :
    autoMarkNoShows 1000 none
        [⟨1, 900, 30, "scheduled"⟩, ⟨2, 980, 30, "scheduled"⟩, ⟨3, 100, 30, "completed"⟩]
      = [⟨1, 900, 30, "no_show"⟩, ⟨2, 980, 30, "scheduled"⟩, ⟨3, 100, 30, "completed"⟩] := by
  rw [autoMarkNoShows_correct 1000 none _ (by decide)]
  decide

/-- C3: the automation scan is idempotent per `(appointment, rule)` pair:
across two consecutive firings within the same window, at most one dispatch
is accepted by the gateway, the `(appointment, rule)` log rows grow by at
most one, and a dispatch whose result is not `submitted` leaves the logs
unchanged (and sends nothing), so the rule can retry on a later scan. -/
theorem automation_firing_idempotent (logs : List (Nat × Nat)) (a r : Nat)
    (o1 o2 : SendStatus) :
    (fireRuleForAppt logs a r o1).2
        + (fireRuleForAppt (fireRuleForAppt logs a r o1).1 a r o2).2 ≤ 1
    ∧ ((fireRuleForAppt (fireRuleForAppt logs a r o1).1 a r o2).1.countP
          fun l => l.1 == a && l.2 == r)
        ≤ (logs.countP fun l => l.1 == a && l.2 == r) + 1
    ∧ fireRuleForAppt logs a r .failed = (logs, 0) := by
  have hfail : fireRuleForAppt logs a r .failed = (logs, 0) := by
    unfold fireRuleForAppt
    split <;> rfl
  refine ⟨?_, ?_, hfail⟩ <;>
  · by_cases h : (logs.any fun l => l.1 == a && l.2 == r) = true
    · simp [fireRuleForAppt, h]
    · cases o1 with
      | submitted =>
          have h2 : ((logs ++ [(a, r)]).any fun l => l.1 == a && l.2 == r) = true := by
            rw [List.any_eq_true]
            exact ⟨(a, r), by simp, by simp⟩
          simp [fireRuleForAppt, h, h2, List.countP_append]
      | failed =>
          cases o2 <;> simp [fireRuleForAppt, h, List.countP_append]

/-- C9: the explicit status-update handler accepts a target of `completed`,
`no_show` or `cancelled` for an appointment in status `scheduled`, returning
the row updated to the target status, and rejects any other target value
with `InvalidStatus` (400), leaving the appointments unchanged. -/
theorem updateStatus_valid_targets_only :
    (∀ appts apptId status appt,
      allowedStatuses.contains status = true →
      appts.find? (fun a => a.id == apptId) = some appt →
      appt.status = "scheduled" →
      updateAppointmentStatus appts apptId status
        = (.ok { appt with status := status },
           appts.map fun a => if a.id = apptId then { a with status := status } else a))
    ∧ (∀ appts apptId status,
        allowedStatuses.contains status = false →
        updateAppointmentStatus appts apptId status = (.invalidStatus, appts)) := by
  constructor
  · intro appts apptId status appt hallow hfind _hsched
    unfold updateAppointmentStatus
    rw [hallow, hfind]
    rfl
  · intro appts apptId status hallow
    unfold updateAppointmentStatus
    rw [hallow]
    rfl

/-- C9 witness: target `completed` is accepted from a scheduled appointment
and applied; target `archived` is rejected with `InvalidStatus` and the
store is unchanged. -/
theorem updateStatus_witness :
    updateAppointmentStatus [⟨1, 100, 30, "scheduled"⟩] 1 "completed"
        = (.ok ⟨1, 100, 30, "completed"⟩, [⟨1, 100, 30, "completed"⟩])
    ∧ updateAppointmentStatus [⟨1, 100, 30, "scheduled"⟩] 1 "archived"
        = (.invalidStatus, [⟨1, 100, 30, "scheduled"⟩]) := by
  constructor
  · rw [updateStatus_valid_targets_only.1 [⟨1, 100, 30, "scheduled"⟩] 1 "completed"
      ⟨1, 100, 30, "scheduled"⟩ (by decide) (by decide) rfl]
    decide
  · exact updateStatus_valid_targets_only.2 _ 1 "archived" (by decide)

/-- C5: every successful reschedule resets the appointment's status to
`scheduled` (at the new time) and deletes every AutomationLog row of that
appointment, so previously fired reminders can fire again for the new time. -/
theorem reschedule_clears_logs_and_resets_status
    (st : Store) (apptId maxPerSlot newTime : Nat) (u : StoredAppt) (st2 : Store)
    (h : rescheduleSlot st apptId maxPerSlot newTime = (.ok u, st2)) :
    u.status = "scheduled" ∧ u.time = newTime
    ∧ (∀ l ∈ st2.automationLogs, l.1 ≠ apptId)
    ∧ (∀ a ∈ st2.appointments, a.id = apptId →
        a.status = "scheduled" ∧ a.time = newTime) := by
  unfold rescheduleSlot at h
  split at h
  · exact absurd h (by simp)
  · dsimp only at h
    split at h
    · exact absurd h (by simp)
    · split at h
      · rw [Prod.mk.injEq, RescheduleResult.ok.injEq] at h
        obtain ⟨hu, hst2⟩ := h
        subst hu
        refine ⟨rfl, rfl, ?_, ?_⟩
        · intro l hl
          rw [← hst2] at hl
          simp only [List.mem_filter] at hl
          simpa using hl.2
        · intro a hha hid
          rw [← hst2] at hha
          simp only [List.mem_map] at hha
          obtain ⟨b, _, rfl⟩ := hha
          by_cases hb : b.id = apptId
          · simp [hb]
          · simp only [if_neg hb] at hid ⊢
            exact absurd hid hb
      · exact absurd h (by simp)

/-- C5 witness: rescheduling a `completed` appointment with one 30-minute
line item and one AutomationLog row to minute 2000 succeeds; the log row is
gone and the status is back to `scheduled` at the new time. -/
theorem reschedule_witness :
    (⟨1, 2000, 30, "scheduled"⟩ : StoredAppt).status = "scheduled"
    ∧ (⟨1, 2000, 30, "scheduled"⟩ : StoredAppt).time = 2000
    ∧ (∀ l ∈ (⟨[⟨1, 2000, 30, "scheduled"⟩], [⟨1, 0, 30⟩], []⟩ : Store).automationLogs,
        l.1 ≠ 1)
    ∧ (∀ a ∈ (⟨[⟨1, 2000, 30, "scheduled"⟩], [⟨1, 0, 30⟩], []⟩ : Store).appointments,
        a.id = 1 → a.status = "scheduled" ∧ a.time = 2000) :=
  reschedule_clears_logs_and_resets_status
    ⟨[⟨1, 100, 30, "completed"⟩], [⟨1, 0, 30⟩], [(1, 7)]⟩ 1 1 2000
    ⟨1, 2000, 30, "scheduled"⟩ ⟨[⟨1, 2000, 30, "scheduled"⟩], [⟨1, 0, 30⟩], []⟩
    (by decide)

/-- C4: the appointment row and its service line items are persisted as one
logical unit.  If the line-item insert fails after the appointment row was
committed, the row is deleted again and (for a fresh id) the store is exactly
as before — no partial appointment and no net write; on the success path the
appointment row and every line item are present. -/
theorem booking_line_items_atomic
    (st : Store) (nextId maxPerSlot : Nat) (services : List SvcItem) (time : Nat)
    (hfresh : ∀ a ∈ st.appointments, a.id ≠ nextId) :
    (createAppointment st nextId maxPerSlot services time true).2 = st
    ∧ ∀ appt, (createAppointment st nextId maxPerSlot services time false).1 = .ok appt →
        appt ∈ (createAppointment st nextId maxPerSlot services time false).2.appointments
        ∧ ∀ s ∈ services,
            (⟨nextId, s.serviceId, s.durationMinutes⟩ : SvcRow)
              ∈ (createAppointment st nextId maxPerSlot services time false).2.appointmentServices := by
  have hfilterSelf : st.appointments.filter (fun a => a.id != nextId)
      = st.appointments := by
    rw [List.filter_eq_self]
    intro a ha
    simpa using hfresh a ha
  constructor
  · by_cases h1 : services.isEmpty
    · simp [createAppointment, h1]
    · by_cases h2 : (services.map (·.durationMinutes)).sum = 0
      · simp [createAppointment, h1, h2]
      · by_cases h3 : capacityCheckPasses (dayLoad st time) (time % 1440)
            ((services.map (·.durationMinutes)).sum) maxPerSlot
        · obtain ⟨sa, ss, sl⟩ := st
          simp only [createAppointment, h1, h2, h3] at hfilterSelf ⊢
          simp [List.filter_append, hfilterSelf]
        · simp [createAppointment, h1, h2, h3]
  · intro appt h
    by_cases h1 : services.isEmpty
    · exact absurd h (by simp [createAppointment, h1])
    · by_cases h2 : (services.map (·.durationMinutes)).sum = 0
      · exact absurd h (by simp [createAppointment, h1, h2])
      · by_cases h3 : capacityCheckPasses (dayLoad st time) (time % 1440)
            ((services.map (·.durationMinutes)).sum) maxPerSlot
        · have happt : appt
              = { id := nextId, time := time,
                  durationMinutes := (services.map (·.durationMinutes)).sum,
                  status := "scheduled" } := by
            have hh := h
            simp only [createAppointment, h1, h2, h3] at hh
            simp at hh
            exact hh.symm
          subst happt
          constructor
          · simp [createAppointment, h1, h2, h3]
          · intro s hs
            simp only [createAppointment, h1, h2, h3]
            exact List.mem_append_right _ (List.mem_map_of_mem _ hs)
        · exact absurd h (by simp [createAppointment, h1, h2, h3])

/-- C4 witness: on an empty store, a booking of one 30-minute service whose
line-item insert fails leaves the store exactly empty. -/
theorem booking_line_items_atomic_witness :
    (createAppointment ⟨[], [], []⟩ 1 1 [⟨0, 30⟩] 600 true).2 = (⟨[], [], []⟩ : Store) :=
  (booking_line_items_atomic ⟨[], [], []⟩ 1 1 [⟨0, 30⟩] 600 (by simp)).1

/-- C1: the booking capacity check is all-or-nothing.  For a payload-valid
request, the handler avoids `SlotFullyBooked` exactly when every slot of the
required range has same-day scheduled load strictly below
`max_appointments_per_slot`, and a `SlotFullyBooked` failure writes nothing.
Moreover with `max_appointments_per_slot = k`, booking `k + 1` appointments
of one single-slot service into the same slot succeeds for the first `k` and
fails with `SlotFullyBooked` for the `(k+1)`th, leaving exactly `k` rows. -/
theorem booking_capacity_all_or_nothing :
    (∀ st nextId maxPerSlot services time,
      services.isEmpty = false →
      (services.map (·.durationMinutes)).sum ≠ 0 →
      (((createAppointment st nextId maxPerSlot services time false).1
            ≠ .slotFullyBooked
          ↔ ∀ i < requiredSlotCount ((services.map (·.durationMinutes)).sum),
              dayLoad st time (time % 1440 / SLOT_SIZE_MINUTES + i) < maxPerSlot)
        ∧ ((createAppointment st nextId maxPerSlot services time false).1
              = .slotFullyBooked →
            (createAppointment st nextId maxPerSlot services time false).2 = st)))
    ∧ (∀ k d t, 0 < d → d ≤ 15 →
        bookTimes k [⟨0, d⟩] t (k + 1) (storeN 0 t d) 0
          = ((List.range k).map (fun n =>
                .ok { id := n, time := t, durationMinutes := d, status := "scheduled" })
              ++ [.slotFullyBooked],
             storeN k t d)) := by
  constructor
  · intro st nextId maxPerSlot services time h1 h2
    have hcap : capacityCheckPasses (dayLoad st time) (time % 1440)
          ((services.map (·.durationMinutes)).sum) maxPerSlot = true
        ↔ ∀ i < requiredSlotCount ((services.map (·.durationMinutes)).sum),
            dayLoad st time (time % 1440 / SLOT_SIZE_MINUTES + i) < maxPerSlot := by
      unfold capacityCheckPasses
      rw [List.all_eq_true]
      constructor
      · intro hall i hi
        simpa using hall i (List.mem_range.mpr hi)
      · intro hall i hi
        simpa using hall i (List.mem_range.mp hi)
    by_cases h3 : capacityCheckPasses (dayLoad st time) (time % 1440)
        ((services.map (·.durationMinutes)).sum) maxPerSlot
    · constructor
      · rw [← hcap]
        simp [createAppointment, h1, h2, h3]
      · intro hres
        exact absurd hres (by simp [createAppointment, h1, h2, h3])
    · constructor
      · rw [← hcap]
        simp [createAppointment, h1, h2, h3]
      · intro _
        simp [createAppointment, h1, h2, h3]
  · intro k d t hd hd15
    have hmain := bookTimes_storeN k d t hd hd15 (k + 1) 0 (Nat.zero_add _) (Nat.zero_le k)
    rw [hmain, Nat.sub_zero, ← List.range_eq_range']

/-- C1 witness: on an empty store a single-slot booking is accepted (its
required slot has load 0 below the cap of 1), and with a cap of 2 the first
two bookings into one slot succeed while the third fails with no write. -/
theorem booking_capacity_all_or_nothing_witness :
    (createAppointment (storeN 0 0 15) 7 1 [⟨0, 15⟩] 0 false).1 ≠ .slotFullyBooked
    ∧ bookTimes 2 [⟨0, 15⟩] 0 3 (storeN 0 0 15) 0
        = ((List.range 2).map (fun n =>
              .ok { id := n, time := 0, durationMinutes := 15, status := "scheduled" })
            ++ [.slotFullyBooked],
           storeN 2 0 15) :=
  ⟨((booking_capacity_all_or_nothing.1 (storeN 0 0 15) 7 1 [⟨0, 15⟩] 0
      (by decide) (by decide)).1).mpr (by decide),
   booking_capacity_all_or_nothing.2 2 15 0 (by decide) (by decide)⟩

/-- C7: contrary to the specified past-time guard, neither the booking
handler nor the reschedule handler compares the target time with the current
time: a booking at UTC minute 500 (while the clock reads a later instant,
say minute 1000 — neither handler even reads the clock) succeeds and writes
the row instead of failing with `PastTimeRejected`, and so does a reschedule
to the same past minute. -/
theorem booking_and_reschedule_accept_past_times :
    (createAppointment ⟨[], [], []⟩ 1 1 [⟨0, 30⟩] 500 false).1
        = .ok ⟨1, 500, 30, "scheduled"⟩
    ∧ (⟨1, 500, 30, "scheduled"⟩ : StoredAppt)
        ∈ (createAppointment ⟨[], [], []⟩ 1 1 [⟨0, 30⟩] 500 false).2.appointments
    ∧ (rescheduleSlot ⟨[⟨1, 100000, 30, "scheduled"⟩], [⟨1, 0, 30⟩], []⟩ 1 1 500).1
        = .ok ⟨1, 500, 30, "scheduled"⟩ := by
  decide

/-- C8: contrary to the claim's resend flow, the retry coordinator can never
mark a message `sent`: its try-block calls `getCustomerPhone`, which is not
defined anywhere in the repository, so every selected message takes the
catch path — status restored to `failed`, retry count incremented, the
`ReferenceError` text captured — before any resend is attempted.  A message
whose retry count has reached 3 is indeed left untouched. -/
theorem retry_coordinator_never_marks_sent :
    retryFailedMessages [⟨1, 5, "hello", "failed", 0, none⟩]
        = [⟨1, 5, "hello", "failed", 1, some ("getCustomerPhone is not defined")⟩]
    ∧ retryFailedMessages [⟨2, 5, "hello", "failed", 3, none⟩]
        = [⟨2, 5, "hello", "failed", 3, none⟩] := by
  decide

end WhatsappCrm
